import Mathlib

/-!
Verification of the margin-aware trading engine (`deepseekok2.py`).

Machine floats of the source are embedded as exact rationals (ℚ); the
external exchange precision service (`exchange.amount_to_precision`) is an
excluded collaborator and is modelled by the in-repo fallback branch of
`adjust_contract_quantity`.
-/

namespace CryptoTrader

/-- `HOLD_TOLERANCE = 0.5`, the price-change percentage a HOLD signal tolerates. -/
def HOLD_TOLERANCE : ℚ := 1/2

/-- Python `str.upper()` on the ASCII signal labels used by the program. -/
def pyUpper (s : String) : String := String.mk (s.data.map Char.toUpper)

/-- `CONFIDENCE_RATIOS` dictionary: allocation fraction per confidence tier. -/
def confidenceFrac (c : String) : Option ℚ :=
  if c = "HIGH" then some (3/10)
  else if c = "MEDIUM" then some (2/10)
  else if c = "LOW" then some (5/100)
  else none

/-- Normalized contract specification, as returned by `get_symbol_contract_specs`. -/
structure ContractSpecs where
  contract_size : ℚ
  min_contracts : ℚ
  step : Option ℚ
  precision : Option ℕ
deriving DecidableEq

/-- `base_to_contracts` / `contracts_to_base` guard a falsy contract size with 1.0. -/
def effContractSize (spec : ContractSpecs) : ℚ :=
  if spec.contract_size = 0 then 1 else spec.contract_size

/-- `base_to_contracts`: base quantity to exchange contract count. -/
def baseToContracts (spec : ContractSpecs) (q : ℚ) : ℚ :=
  q / effContractSize spec

/-- `contracts_to_base`: exchange contract count to base quantity. -/
def contractsToBase (spec : ContractSpecs) (c : ℚ) : ℚ :=
  c * effContractSize spec

/-- `adjust_contract_quantity(..., round_up=True)`: ceiling at the step granularity
when a nonzero step is known, else plain ceiling; the external
`exchange.amount_to_precision` call is modelled as unavailable, so the
declared-precision ceiling fallback applies when a precision is present. -/
def adjustContractQuantityUp (spec : ContractSpecs) (c : ℚ) : ℚ :=
  let stepped : ℚ :=
    match spec.step with
    | some s => if s ≠ 0 then (⌈c / s⌉ : ℚ) * s else (⌈c⌉ : ℚ)
    | none => (⌈c⌉ : ℚ)
  match spec.precision with
  | some p => (⌈stepped * (10:ℚ)^p⌉ : ℚ) / (10:ℚ)^p
  | none => stepped

/-! ## Position sizing engine (`analyze_with_deepseek`, lines 2162-2244) -/

/-- One cell of the `position_suggestions` matrix. -/
structure SuggestionCell where
  quantity : ℚ
  contracts : ℚ
  value : ℚ
  margin : ℚ
  meets_min : Bool
  meets_margin : Bool
  meets : Bool
deriving DecidableEq

/-- The body of the sizing loop in `analyze_with_deepseek`: builds the cell for one
(confidence fraction, leverage) pair from the usable margin and current price. -/
def buildSuggestionCell (spec : ContractSpecs) (minQuantity usableMargin price lev frac : ℚ) :
    SuggestionCell :=
  let targetMargin := usableMargin * frac
  let rawQuantity := if price ≠ 0 then targetMargin * lev / price else 0
  let baseQuantity := max rawQuantity minQuantity
  let contracts0 := baseToContracts spec baseQuantity
  let contracts1 := if spec.min_contracts ≠ 0 then max contracts0 spec.min_contracts else contracts0
  let adjContracts := adjustContractQuantityUp spec contracts1
  let adjQuantity := contractsToBase spec adjContracts
  let adjMargin := if lev ≠ 0 then adjQuantity * price / lev else 0
  { quantity := adjQuantity
    contracts := adjContracts
    value := adjQuantity * price
    margin := adjMargin
    meets_min := decide (adjContracts ≥ (if spec.min_contracts ≠ 0 then spec.min_contracts else 0))
    meets_margin := if usableMargin ≠ 0 then decide (adjMargin ≤ usableMargin) else true
    meets :=
      (decide (adjContracts ≥ (if spec.min_contracts ≠ 0 then spec.min_contracts else 0))) &&
      (if usableMargin ≠ 0 then decide (adjMargin ≤ usableMargin) else true) }

/-- The double loop over confidence tiers and leverage choices; the usable margin is
`available_balance * 0.8`. -/
def buildSuggestionMatrix (spec : ContractSpecs) (minQuantity availableBalance price : ℚ)
    (leverageList : List ℚ) : List (String × ℚ × SuggestionCell) :=
  let maxUsableMargin := availableBalance * (8/10)
  (["HIGH", "MEDIUM", "LOW"].map fun conf =>
    leverageList.map fun lev =>
      (conf, lev,
        buildSuggestionCell spec minQuantity maxUsableMargin price lev
          ((confidenceFrac conf).getD 0))).flatten

/-- `can_trade = any(pos.get('meets') ...)`. -/
def canTrade (cells : List (String × ℚ × SuggestionCell)) : Bool :=
  cells.any fun c => c.2.2.meets

/-! ## Signal ledger (`append_signal_record`, `update_signal_validation`,
`compute_accuracy_metrics`) -/

/-- A signal ledger entry. Optional fields model dictionary keys that may be
absent or `None`; `entry_price` is optional because the CLOSE execution path
appends a record without that key. -/
structure SignalRecord where
  timestamp : String
  signal : String
  confidence : String
  leverage : Option ℤ
  entry_price : Option ℚ
  validation_price : Option ℚ
  validation_timestamp : Option String
  price_change_pct : Option ℚ
  result : Option String
  reason : String
  stop_loss : Option ℚ
  take_profit : Option ℚ
deriving DecidableEq

/-- Python truthiness of an optional float (`None` and `0.0` are falsy). -/
def truthyQ : Option ℚ → Bool
  | none => false
  | some x => x ≠ 0

/-- `evaluate_signal_result`. -/
def evaluateSignalResult (signal : String) (priceChangePct : ℚ) : Bool :=
  let s := pyUpper signal
  if s = "BUY" then priceChangePct ≥ 0
  else if s = "SELL" then priceChangePct ≤ 0
  else if s = "HOLD" then |priceChangePct| ≤ HOLD_TOLERANCE
  else false

/-- The per-record body of the loop in `update_signal_validation`. -/
def updateRecord (currentPrice : ℚ) (timestamp : String) (r : SignalRecord) : SignalRecord :=
  if r.validation_price = none ∧ truthyQ r.entry_price then
    let entry := r.entry_price.getD 0
    let changePct := if entry ≠ 0 then (currentPrice - entry) / entry * 100 else 0
    { r with
      validation_price := some currentPrice
      validation_timestamp := some timestamp
      price_change_pct := some changePct
      result := some (if evaluateSignalResult r.signal changePct then "success" else "fail") }
  else r

/-- `update_signal_validation`: one validation pass over a symbol's history. -/
def updateSignalValidation (currentPrice : ℚ) (timestamp : String)
    (history : List SignalRecord) : List SignalRecord :=
  history.map (updateRecord currentPrice timestamp)

/-- Accuracy summary produced by the local `summarize` helper. -/
structure AccSummary where
  total : ℕ
  success : ℕ
  rate : Option ℚ
deriving DecidableEq

/-- `summarize(records)` inside `compute_accuracy_metrics`; the ratio is `None`
when the record set is empty. -/
def summarize (records : List SignalRecord) : AccSummary :=
  let total := records.length
  let success := (records.filter fun r => r.result = some "success").length
  { total := total
    success := success
    rate := if total = 0 then none else some ((success : ℚ) / total) }

/-- Records counted as evaluated: `result in ('success', 'fail')`. -/
def isEvaluated (r : SignalRecord) : Bool :=
  r.result = some "success" || r.result = some "fail"

/-- `history[-n:]`. -/
def lastN (n : ℕ) (l : List SignalRecord) : List SignalRecord :=
  l.drop (l.length - n)

/-- The output of `compute_accuracy_metrics`; breakdowns are modelled as
functions of the label looped over in the source. -/
structure AccuracyMetrics where
  win10 : AccSummary
  win30 : AccSummary
  win50 : AccSummary
  bySignal : String → AccSummary
  byConfidence : String → AccSummary
  byLeverageLow : AccSummary
  byLeverageMid : AccSummary
  byLeverageHigh : AccSummary

/-- `compute_accuracy_metrics`. -/
def computeAccuracyMetrics (history : List SignalRecord) : AccuracyMetrics :=
  let evaluated := history.filter isEvaluated
  let levBucket (lo hi : ℤ) : AccSummary :=
    summarize (evaluated.filter fun r =>
      match r.leverage with
      | some l => lo ≤ l ∧ l ≤ hi
      | none => false)
  { win10 := summarize (lastN 10 evaluated)
    win30 := summarize (lastN 30 evaluated)
    win50 := summarize (lastN 50 evaluated)
    bySignal := fun label => summarize (evaluated.filter fun r => r.signal = label)
    byConfidence := fun label => summarize (evaluated.filter fun r => r.confidence = label)
    byLeverageLow := levBucket 3 8
    byLeverageMid := levBucket 9 12
    byLeverageHigh := levBucket 13 20 }

/-- `append_signal_record`: append, then evict the oldest entry once the ledger
exceeds 200 records. -/
def appendSignalRecord (history : List SignalRecord) (r : SignalRecord) : List SignalRecord :=
  let h := history ++ [r]
  if h.length > 200 then h.drop 1 else h

/-- The CLOSE execution path (`execute_trade`, lines 2533-2540) appends directly
to `ctx.signal_history[symbol]` with no bound check. -/
def closePathAppend (history : List SignalRecord) (r : SignalRecord) : List SignalRecord :=
  history ++ [r]

/-! ## Decision stage of `analyze_with_deepseek` (lines 2212-2244) -/

/-- The HOLD fallback record appended when no suggestion cell is feasible
(`is_insufficient_balance` branch): signal HOLD, confidence LOW. -/
def insufficientBalanceRecord (currentPrice : ℚ) (timestamp : String)
    (defaultLeverage : ℤ) (reason : String) : SignalRecord :=
  { timestamp := timestamp
    signal := "HOLD"
    confidence := "LOW"
    leverage := some defaultLeverage
    entry_price := some currentPrice
    validation_price := none
    validation_timestamp := none
    price_change_pct := none
    result := none
    reason := reason
    stop_loss := some (currentPrice * (98/100))
    take_profit := some (currentPrice * (102/100)) }

/-- Outcome of the decision stage: the produced signal, whether the external
decision source was invoked, and the ledger afterwards. -/
structure AnalyzeOutcome where
  signal : String
  confidence : String
  aiInvoked : Bool
  history : List SignalRecord
deriving DecidableEq

/-- Control skeleton of `analyze_with_deepseek` after the matrix is built:
if no cell meets both flags, append a HOLD record and return without calling
the decision source; otherwise run the pending-signal validation pass and
invoke the decision source (modelled by `aiSignal`/`aiConfidence`). -/
def analyzeDecisionStage (cells : List (String × ℚ × SuggestionCell))
    (history : List SignalRecord) (currentPrice : ℚ) (timestamp : String)
    (defaultLeverage : ℤ) (reason : String)
    (aiSignal aiConfidence : String) (aiRecord : SignalRecord) : AnalyzeOutcome :=
  if canTrade cells = false then
    { signal := "HOLD"
      confidence := "LOW"
      aiInvoked := false
      history := appendSignalRecord history
        (insufficientBalanceRecord currentPrice timestamp defaultLeverage reason) }
  else
    { signal := aiSignal
      confidence := aiConfidence
      aiInvoked := true
      history := appendSignalRecord (updateSignalValidation currentPrice timestamp history)
        aiRecord }

/-! ## Execution engine: early returns of `execute_trade` (lines 2454-2560) -/

/-- How `execute_trade` leaves its pre-lock section. Only `proceed` goes on to
acquire the global execution lock; only `proceed` and `closeExecuted` submit an
order. -/
inductive ExecAction where
  | suppressReversal
  | suppressCooldown
  | closeIgnored
  | closeTestMode
  | closeExecuted
  | holdSkip
  | lowConfSkip
  | testModeSkip
  | proceed
deriving DecidableEq

/-- The most recent entry of `trade_history` (an actually executed trade):
its recorded side and its age in minutes at the time of the new signal. -/
structure LastTrade where
  side : String
  minutesAgo : ℚ
deriving DecidableEq

/-- `new_side` as computed at the top of `execute_trade`: BUY targets a long
position, SELL a short one, anything else maps to `None`. -/
def newSideOf (signal : String) : Option String :=
  if signal = "BUY" then some "long"
  else if signal = "SELL" then some "short"
  else none

/-- The early-return ladder of `execute_trade` before the execution lock:
anti-reversal guard, CLOSE handling, HOLD skip, LOW-confidence skip, test mode. -/
def executeTradeEarly (position : Option String) (signal confidence : String)
    (testMode : Bool) (lastTrade : Option LastTrade) : ExecAction :=
  let reversalGuard : Option ExecAction :=
    match position with
    | some currentSide =>
      if signal ≠ "HOLD" then
        let newSide : Option String := newSideOf signal
        if newSide ≠ some currentSide then
          if confidence ≠ "HIGH" then some .suppressReversal
          else
            match lastTrade with
            | some lt =>
              if some lt.side = newSide ∧ lt.minutesAgo < 30 then some .suppressCooldown
              else none
            | none => none
        else none
      else none
    | none => none
  match reversalGuard with
  | some a => a
  | none =>
    if pyUpper signal = "CLOSE" then
      match position with
      | none => .closeIgnored
      | some _ => if testMode then .closeTestMode else .closeExecuted
    else if pyUpper signal = "HOLD" then .holdSkip
    else if confidence = "LOW" ∧ testMode = false then .lowConfSkip
    else if testMode then .testModeSkip
    else .proceed

/-- Whether an early-action outcome reaches the global execution lock. -/
def reachesLock (a : ExecAction) : Bool := a = .proceed

/-- Whether an early-action outcome can submit any exchange order. -/
def submitsOrder (a : ExecAction) : Bool := a = .proceed || a = .closeExecuted

/-! ## Execution engine: quantity determination (lines 2656-2700) -/

/-- `expected_contracts` recomputed inside `execute_trade` for the chosen
(confidence, leverage): the pricing-oracle value of the matrix cell. -/
def expectedContractsCalc (spec : ContractSpecs) (minContracts maxUsableMargin frac lev price : ℚ) :
    ℚ :=
  let marginPool := maxUsableMargin * frac
  let expectedValue := marginPool * lev
  let expectedQty := if price ≠ 0 then expectedValue / price else 0
  let ec := baseToContracts spec expectedQty
  if price ≠ 0 then adjustContractQuantityUp spec (max ec minContracts) else minContracts

/-- Quantity determination: a decision-source quantity outside the ±20% band
around the expected quantity is overridden with the expected contracts. -/
def determineTradeContracts (spec : ContractSpecs)
    (expectedContracts expectedQuantity orderQuantity orderValue price : ℚ) : ℚ :=
  if orderQuantity > 0 then
    let tc := baseToContracts spec orderQuantity
    let ta := contractsToBase spec tc
    let lowerBound := expectedQuantity * (8/10)
    let upperBound := expectedQuantity * (12/10)
    if expectedQuantity > 0 ∧ (ta < lowerBound ∨ ta > upperBound) then expectedContracts else tc
  else if orderValue > 0 then
    baseToContracts spec (if price ≠ 0 then orderValue / price else 0)
  else expectedContracts

/-! ## Execution engine: submission retry ladder (lines 2826-2983) -/

/-- Outcome the exchange reports for one submission attempt. -/
inductive SubmitOutcome where
  | ok
  | insufficientFunds
  | otherError
deriving DecidableEq

/-- Result of the retry loop: either an order was submitted with the final
contract quantity, or the cycle was aborted by a plain `return`. -/
inductive ExecResult where
  | submitted (contracts : ℚ)
  | aborted
deriving DecidableEq

/-- The `for attempt in range(max_retries)` loop. `fuel` counts the attempts
still available including the current one; `attempt < max_retries - 1` is
`1 < fuel`. On `InsufficientFunds` with retries left the quantity is halved and
re-adjusted upward to the step, aborting if it falls below the minimum
contracts; any other error retries with the same quantity. -/
def submitAttempts (submit : ℕ → ℚ → SubmitOutcome) (spec : ContractSpecs)
    (minContracts : ℚ) : ℕ → ℕ → ℚ → ExecResult
  | _, 0, _ => .aborted
  | attempt, fuel + 1, contracts =>
    match submit attempt contracts with
    | .ok => .submitted contracts
    | .insufficientFunds =>
      if fuel > 0 then
        let halved := adjustContractQuantityUp spec (contracts * (1/2))
        if minContracts ≠ 0 ∧ halved < minContracts then .aborted
        else submitAttempts submit spec minContracts (attempt + 1) fuel halved
      else .aborted
    | .otherError =>
      if fuel > 0 then submitAttempts submit spec minContracts (attempt + 1) fuel contracts
      else .aborted

/-- `max_retries = 2`. -/
def MAX_RETRIES : ℕ := 2

/-- The whole submission phase starting from the verified quantity. -/
def executeSubmission (submit : ℕ → ℚ → SubmitOutcome) (spec : ContractSpecs)
    (minContracts quantity : ℚ) : ExecResult :=
  submitAttempts submit spec minContracts 0 MAX_RETRIES quantity

/-- A trade-history entry; only the fields the claims mention are modelled. -/
structure TradeRecord where
  trade_type : String
  contracts : ℚ
  amount : ℚ
deriving DecidableEq

/-- Trade history after the submission phase: a `TradeRecord` is appended only
when an order was actually submitted (`trade_type is not None`); an aborted
cycle returns before the recording block. -/
def tradeHistoryAfter (spec : ContractSpecs) (tradeType : String)
    (history : List TradeRecord) : ExecResult → List TradeRecord
  | .submitted c => history ++ [{ trade_type := tradeType, contracts := c,
                                  amount := contractsToBase spec c }]
  | .aborted => history

/-! ## Theorems -/

/-- A concrete contract specification used by witnesses: contract size 0.001,
minimum 1 contract, step 1 contract, no separate precision. -/
def specETH : ContractSpecs := ⟨1/1000, 1, some 1, none⟩

/-- C1: the sizing engine builds a cell for every (confidence tier, leverage)
pair via target margin, raw quantity, clamping, step round-up and margin
recomputation; whenever `meets_margin_cap` is true the recomputed margin is at
most the usable margin `b * 0.8`, and whenever `meets_minimum` is true the
rounded contracts are at least the minimum contracts. -/
theorem suggestionCell_flags_sound (spec : ContractSpecs) (minQuantity b price lev frac : ℚ)
    (hp : 0 < price) (hb : 0 < b) :
    (∀ conf ∈ (["HIGH", "MEDIUM", "LOW"] : List String), ∀ lv ∈ [lev],
      (conf, lv, buildSuggestionCell spec minQuantity (b * (8/10)) price lv
          ((confidenceFrac conf).getD 0)) ∈
        buildSuggestionMatrix spec minQuantity b price [lev]) ∧
    ((buildSuggestionCell spec minQuantity (b * (8/10)) price lev frac).meets_margin = true →
      (buildSuggestionCell spec minQuantity (b * (8/10)) price lev frac).margin ≤ b * (8/10)) ∧
    ((buildSuggestionCell spec minQuantity (b * (8/10)) price lev frac).meets_min = true →
      (buildSuggestionCell spec minQuantity (b * (8/10)) price lev frac).contracts ≥
        spec.min_contracts) := by
  have hu : b * (8/10) ≠ 0 := by positivity
  refine ⟨?_, ?_, ?_⟩
  · intro conf hconf lv hlv
    simp only [buildSuggestionMatrix]
    exact List.mem_flatten.mpr ⟨_, List.mem_map_of_mem _ hconf, List.mem_map_of_mem _ hlv⟩
  · intro h
    simp only [buildSuggestionCell] at h ⊢
    rw [if_pos hu, decide_eq_true_eq] at h
    exact h
  · intro h
    simp only [buildSuggestionCell, decide_eq_true_eq] at h ⊢
    by_cases hm : spec.min_contracts ≠ 0
    · simpa [hm] using h
    · push_neg at hm
      simpa [hm] using h

/-- C1 witness: balance 1000, price 2000, HIGH fraction 0.30, leverage 2,
minimum quantity 0.001 — usable margin 800, the cell quantity is 0.24 and the
recomputed required margin is 240, within the cap and above the minimum. -/
theorem suggestionCell_flags_sound_witness :
    (0:ℚ) < 2000 ∧ (0:ℚ) < 1000 ∧ (1000 * (8/10) : ℚ) = 800 ∧
    (buildSuggestionCell specETH (1/1000) (1000 * (8/10)) 2000 2 (3/10)).quantity = 6/25 ∧
    (buildSuggestionCell specETH (1/1000) (1000 * (8/10)) 2000 2 (3/10)).margin = 240 ∧
    (buildSuggestionCell specETH (1/1000) (1000 * (8/10)) 2000 2 (3/10)).margin ≤ 1000 * (8/10) ∧
    (buildSuggestionCell specETH (1/1000) (1000 * (8/10)) 2000 2 (3/10)).contracts ≥
      specETH.min_contracts := by
  have hmm : (buildSuggestionCell specETH (1/1000) (1000 * (8/10)) 2000 2 (3/10)).meets_margin =
      true := by
    norm_num [buildSuggestionCell, adjustContractQuantityUp, baseToContracts, contractsToBase,
      effContractSize, specETH, max_def, Int.ceil_ofNat]
  have hmn : (buildSuggestionCell specETH (1/1000) (1000 * (8/10)) 2000 2 (3/10)).meets_min =
      true := by
    norm_num [buildSuggestionCell, adjustContractQuantityUp, baseToContracts, contractsToBase,
      effContractSize, specETH, max_def, Int.ceil_ofNat]
  refine ⟨by norm_num, by norm_num, by norm_num, ?_, ?_, ?_, ?_⟩
  · norm_num [buildSuggestionCell, adjustContractQuantityUp, baseToContracts, contractsToBase,
      effContractSize, specETH, max_def, Int.ceil_ofNat]
  · norm_num [buildSuggestionCell, adjustContractQuantityUp, baseToContracts, contractsToBase,
      effContractSize, specETH, max_def, Int.ceil_ofNat]
  · exact (suggestionCell_flags_sound specETH (1/1000) 1000 2000 2 (3/10)
      (by norm_num) (by norm_num)).2.1 hmm
  · exact (suggestionCell_flags_sound specETH (1/1000) 1000 2000 2 (3/10)
      (by norm_num) (by norm_num)).2.2 hmn

/-- The guarded contract size is never zero, so the contract conversions
round-trip exactly. -/
theorem contractsToBase_baseToContracts (spec : ContractSpecs) (q : ℚ) :
    contractsToBase spec (baseToContracts spec q) = q := by
  unfold contractsToBase baseToContracts effContractSize
  split
  · simp
  · next h => field_simp

/-- A concrete contract specification with contract size 1 and step 0.001. -/
def specUnit : ContractSpecs := ⟨1, 0, some (1/1000), none⟩

/-- C2: a positive decision-source quantity outside the band
`[0.8 * expected, 1.2 * expected]` is overridden with the expected (matrix)
contracts; a quantity inside the band is kept unchanged. -/
theorem tradeQuantity_band (spec : ContractSpecs)
    (expContracts expQty orderQty orderVal price : ℚ)
    (hexp : 0 < expQty) (hq : 0 < orderQty) :
    ((orderQty < expQty * (8/10) ∨ orderQty > expQty * (12/10)) →
      determineTradeContracts spec expContracts expQty orderQty orderVal price = expContracts) ∧
    (expQty * (8/10) ≤ orderQty ∧ orderQty ≤ expQty * (12/10) →
      determineTradeContracts spec expContracts expQty orderQty orderVal price =
        baseToContracts spec orderQty ∧
      contractsToBase spec (baseToContracts spec orderQty) = orderQty) := by
  have hrt : contractsToBase spec (baseToContracts spec orderQty) = orderQty :=
    contractsToBase_baseToContracts spec orderQty
  constructor
  · intro hband
    simp only [determineTradeContracts]
    rw [if_pos hq, hrt, if_pos ⟨hexp, hband⟩]
  · rintro ⟨hlo, hhi⟩
    refine ⟨?_, hrt⟩
    simp only [determineTradeContracts]
    rw [if_pos hq, hrt, if_neg]
    rintro ⟨-, h | h⟩
    · exact absurd hlo (not_le.mpr h)
    · exact absurd hhi (not_le.mpr h)

/-- C2 witness: expected quantity 0.24, band `[0.192, 0.288]`; a returned
quantity 0.50 is overridden to the expected contracts 0.24, while a returned
quantity 0.24 is kept. -/
theorem tradeQuantity_band_witness :
    ((6:ℚ)/25 * (8/10) = 24/125) ∧ ((6:ℚ)/25 * (12/10) = 36/125) ∧
    ((1:ℚ)/2 > (6:ℚ)/25 * (12/10)) ∧
    determineTradeContracts specUnit (6/25) (6/25) (1/2) 0 2000 = 6/25 ∧
    determineTradeContracts specUnit (6/25) (6/25) (6/25) 0 2000 =
      baseToContracts specUnit (6/25) := by
  refine ⟨by norm_num, by norm_num, by norm_num, ?_, ?_⟩
  · exact (tradeQuantity_band specUnit (6/25) (6/25) (1/2) 0 2000
      (by norm_num) (by norm_num)).1 (Or.inr (by norm_num))
  · exact ((tradeQuantity_band specUnit (6/25) (6/25) (6/25) 0 2000
      (by norm_num) (by norm_num)).2 ⟨by norm_num, by norm_num⟩).1

/-- Appending through `append_signal_record` always leaves the new record at
the end of the ledger, eviction or not. -/
theorem appendSignalRecord_getLast (history : List SignalRecord) (r : SignalRecord) :
    (appendSignalRecord history r).getLast? = some r := by
  simp only [appendSignalRecord]
  split
  · cases history with
    | nil => simp_all
    | cons a t => simp [List.getLast?_append]
  · simp [List.getLast?_append]

/-- C3: when no suggestion cell satisfies both feasibility flags, the decision
stage produces a HOLD decision, records it in the signal ledger, and returns
without invoking the external decision source. -/
theorem noFeasibleCell_holds_without_ai (cells : List (String × ℚ × SuggestionCell))
    (history : List SignalRecord) (currentPrice : ℚ) (timestamp reason : String)
    (defaultLeverage : ℤ) (aiSignal aiConfidence : String) (aiRecord : SignalRecord)
    (h : canTrade cells = false) :
    (analyzeDecisionStage cells history currentPrice timestamp defaultLeverage reason
        aiSignal aiConfidence aiRecord).signal = "HOLD" ∧
    (analyzeDecisionStage cells history currentPrice timestamp defaultLeverage reason
        aiSignal aiConfidence aiRecord).aiInvoked = false ∧
    (analyzeDecisionStage cells history currentPrice timestamp defaultLeverage reason
        aiSignal aiConfidence aiRecord).history.getLast? =
      some (insufficientBalanceRecord currentPrice timestamp defaultLeverage reason) := by
  unfold analyzeDecisionStage
  rw [if_pos h]
  exact ⟨rfl, rfl, appendSignalRecord_getLast _ _⟩

/-- C3 witness: a one-cell matrix whose cell fails the margin cap flag, so no
cell is feasible; the stage holds, records, and skips the decision source. -/
theorem noFeasibleCell_holds_without_ai_witness :
    canTrade [("HIGH", 2, buildSuggestionCell specETH (1/1000) (8/10) 2000 2 (3/10))] = false ∧
    (analyzeDecisionStage [("HIGH", 2, buildSuggestionCell specETH (1/1000) (8/10) 2000 2 (3/10))]
        [] 2000 "t" 5 "insufficient" "BUY" "HIGH"
        (insufficientBalanceRecord 2000 "t" 5 "x")).signal = "HOLD" ∧
    (analyzeDecisionStage [("HIGH", 2, buildSuggestionCell specETH (1/1000) (8/10) 2000 2 (3/10))]
        [] 2000 "t" 5 "insufficient" "BUY" "HIGH"
        (insufficientBalanceRecord 2000 "t" 5 "x")).aiInvoked = false := by
  have hc : canTrade [("HIGH", 2, buildSuggestionCell specETH (1/1000) (8/10) 2000 2 (3/10))] = false := by
    norm_num [canTrade, buildSuggestionCell, adjustContractQuantityUp, baseToContracts,
      contractsToBase, effContractSize, specETH, max_def, Int.ceil_ofNat, Int.ceil_one,
      List.any]
  have h := noFeasibleCell_holds_without_ai
    [("HIGH", 2, buildSuggestionCell specETH (1/1000) (8/10) 2000 2 (3/10))]
    [] 2000 "t" "insufficient" 5 "BUY" "HIGH" (insufficientBalanceRecord 2000 "t" 5 "x") hc
  exact ⟨hc, h.1, h.2.1⟩

/-- C4: on an insufficient-margin rejection of the first submission with
contract quantity Q, the engine retries once with the halved, step-adjusted
quantity; it aborts (a plain return) when the halved quantity falls below the
minimum contracts or when the retry budget is exhausted, and an aborted cycle
appends no trade record. -/
theorem insufficientMargin_retry_halves (submit : ℕ → ℚ → SubmitOutcome)
    (spec : ContractSpecs) (minContracts quantity : ℚ)
    (h0 : submit 0 quantity = .insufficientFunds) :
    ((minContracts ≠ 0 ∧ adjustContractQuantityUp spec (quantity * (1/2)) < minContracts →
        executeSubmission submit spec minContracts quantity = .aborted) ∧
      (¬(minContracts ≠ 0 ∧ adjustContractQuantityUp spec (quantity * (1/2)) < minContracts) →
        executeSubmission submit spec minContracts quantity =
          match submit 1 (adjustContractQuantityUp spec (quantity * (1/2))) with
          | .ok => .submitted (adjustContractQuantityUp spec (quantity * (1/2)))
          | .insufficientFunds => .aborted
          | .otherError => .aborted)) ∧
    ∀ (tradeType : String) (history : List TradeRecord),
      tradeHistoryAfter spec tradeType history .aborted = history := by
  refine ⟨⟨?_, ?_⟩, fun _ _ => rfl⟩
  · intro hbelow
    simp only [executeSubmission, MAX_RETRIES, submitAttempts, h0, gt_iff_lt,
      Nat.zero_lt_one, if_true]
    rw [if_pos hbelow]
  · intro hok
    show submitAttempts submit spec minContracts 0 2 quantity = _
    rw [show (2:ℕ) = 1 + 1 from rfl, submitAttempts, h0]
    simp only [gt_iff_lt, Nat.zero_lt_one, if_true, if_neg hok]
    rw [show (1:ℕ) = 0 + 1 from rfl, submitAttempts]
    cases hsub : submit 1 (adjustContractQuantityUp spec (quantity * (1/2))) <;>
      simp [hsub]

/-- C4 witness: quantity 10 with minimum 8 — the halved quantity 5 is below the
minimum, so the cycle aborts and the trade history is unchanged; with minimum 1
the halved retry succeeds with quantity 5. -/
theorem insufficientMargin_retry_halves_witness :
    adjustContractQuantityUp specUnit (10 * (1/2)) = 5 ∧
    executeSubmission (fun _ _ => .insufficientFunds) specUnit 8 10 = .aborted ∧
    executeSubmission (fun n _ => if n = 0 then .insufficientFunds else .ok)
      specUnit 1 10 = .submitted 5 ∧
    tradeHistoryAfter specUnit "open_long" [] .aborted = [] := by
  have h5 : adjustContractQuantityUp specUnit (10 * (1/2)) = 5 := by
    norm_num [adjustContractQuantityUp, specUnit, Int.ceil_ofNat]
  refine ⟨h5, ?_, ?_, ?_⟩
  · exact ((insufficientMargin_retry_halves (fun _ _ => .insufficientFunds) specUnit 8 10
      rfl).1.1) ⟨by norm_num, by rw [h5]; norm_num⟩
  · have h2 := (insufficientMargin_retry_halves
      (fun n _ => if n = 0 then .insufficientFunds else .ok) specUnit 1 10 rfl).1.2
      (by rw [h5]; norm_num)
    rw [h5] at h2
    simpa using h2
  · exact (insufficientMargin_retry_halves (fun _ _ => .insufficientFunds) specUnit 8 10
      rfl).2 "open_long" []

/-- C5: a BUY/SELL signal reversing the current position side executes only at
HIGH confidence; a reversal to a side that was already traded less than 30
minutes earlier is suppressed regardless of confidence, and one attempted at or
after the 30-minute cooldown proceeds. -/
theorem reversal_guard_policy (curSide signal conf : String) (testMode : Bool)
    (lt : LastTrade) (hsig : signal = "BUY" ∨ signal = "SELL")
    (hrev : newSideOf signal ≠ some curSide) :
    (conf ≠ "HIGH" →
      executeTradeEarly (some curSide) signal conf testMode (some lt) = .suppressReversal) ∧
    (some lt.side = newSideOf signal → lt.minutesAgo < 30 →
      executeTradeEarly (some curSide) signal conf testMode (some lt) = .suppressReversal ∨
      executeTradeEarly (some curSide) signal conf testMode (some lt) = .suppressCooldown) ∧
    (conf = "HIGH" → some lt.side = newSideOf signal → 30 ≤ lt.minutesAgo →
      executeTradeEarly (some curSide) signal conf false (some lt) = .proceed) := by
  have hbuy : ∀ s : String, s = "BUY" ∨ s = "SELL" → s ≠ "HOLD" := by
    rintro s (rfl | rfl) <;> decide
  have hhold := hbuy signal hsig
  refine ⟨?_, ?_, ?_⟩
  · intro hc
    simp only [executeTradeEarly]
    rw [if_pos hhold, if_pos hrev, if_pos hc]
  · intro hside htime
    by_cases hc : conf = "HIGH"
    · right
      subst hc
      simp only [executeTradeEarly]
      rw [if_pos hhold, if_pos hrev,
        if_neg (show ¬("HIGH":String) ≠ "HIGH" by decide), if_pos ⟨hside, htime⟩]
    · left
      simp only [executeTradeEarly]
      rw [if_pos hhold, if_pos hrev, if_pos hc]
  · intro hc hside htime
    subst hc
    simp only [executeTradeEarly]
    rw [if_pos hhold, if_pos hrev,
      if_neg (show ¬("HIGH":String) ≠ "HIGH" by decide),
      if_neg (show ¬(some lt.side = newSideOf signal ∧ lt.minutesAgo < 30) from
        fun h => absurd h.2 (not_lt.mpr htime))]
    rcases hsig with rfl | rfl <;> decide

/-- C5 witness: short position, BUY reversal. MEDIUM confidence is suppressed;
a matching reversal executed 10 minutes ago is suppressed even at HIGH
confidence; at HIGH confidence with the last matching trade 30 minutes old the
reversal proceeds. -/
theorem reversal_guard_policy_witness :
    executeTradeEarly (some "short") "BUY" "MEDIUM" false (some ⟨"long", 10⟩) =
      .suppressReversal ∧
    (executeTradeEarly (some "short") "BUY" "HIGH" false (some ⟨"long", 10⟩) =
      .suppressReversal ∨
     executeTradeEarly (some "short") "BUY" "HIGH" false (some ⟨"long", 10⟩) =
      .suppressCooldown) ∧
    executeTradeEarly (some "short") "BUY" "HIGH" false (some ⟨"long", 30⟩) = .proceed := by
  refine ⟨?_, ?_, ?_⟩
  · exact (reversal_guard_policy "short" "BUY" "MEDIUM" false ⟨"long", 10⟩
      (Or.inl rfl) (by decide)).1 (by decide)
  · exact (reversal_guard_policy "short" "BUY" "HIGH" false ⟨"long", 10⟩
      (Or.inl rfl) (by decide)).2.1 (by decide) (by norm_num)
  · exact (reversal_guard_policy "short" "BUY" "HIGH" false ⟨"long", 30⟩
      (Or.inl rfl) (by decide)).2.2 rfl (by decide) (by norm_num)

/-- C10: a BUY or SELL signal with LOW confidence outside test mode never
reaches the execution lock and never submits an order or trade record: it is
stopped either by the reversal guard or by the LOW-confidence skip. -/
theorem lowConfidence_never_executes (pos : Option String) (signal : String)
    (lt : Option LastTrade) (hsig : signal = "BUY" ∨ signal = "SELL") :
    (executeTradeEarly pos signal "LOW" false lt = .suppressReversal ∨
     executeTradeEarly pos signal "LOW" false lt = .lowConfSkip) ∧
    reachesLock (executeTradeEarly pos signal "LOW" false lt) = false ∧
    submitsOrder (executeTradeEarly pos signal "LOW" false lt) = false := by
  have key : ∀ sg : String, sg ≠ "HOLD" → pyUpper sg ≠ "CLOSE" → pyUpper sg ≠ "HOLD" →
      executeTradeEarly pos sg "LOW" false lt = .suppressReversal ∨
      executeTradeEarly pos sg "LOW" false lt = .lowConfSkip := by
    intro sg h1 h2 h3
    cases pos with
    | none =>
      right
      simp only [executeTradeEarly]
      rw [if_neg h2, if_neg h3, if_pos (by exact ⟨trivial, trivial⟩)]
    | some cur =>
      by_cases hrev : newSideOf sg ≠ some cur
      · left
        simp only [executeTradeEarly]
        rw [if_pos h1, if_pos hrev, if_pos (show ("LOW":String) ≠ "HIGH" by decide)]
      · right
        simp only [executeTradeEarly]
        rw [if_pos h1, if_neg hrev, if_neg h2, if_neg h3, if_pos (by exact ⟨trivial, trivial⟩)]
  have hmain : executeTradeEarly pos signal "LOW" false lt = .suppressReversal ∨
      executeTradeEarly pos signal "LOW" false lt = .lowConfSkip := by
    rcases hsig with rfl | rfl
    · exact key "BUY" (by decide) (by decide) (by decide)
    · exact key "SELL" (by decide) (by decide) (by decide)
  refine ⟨hmain, ?_, ?_⟩ <;> rcases hmain with h | h <;> rw [h] <;> rfl

/-- C10 witness: a LOW-confidence SELL with no open position outside test mode
is skipped before the lock; no order and no trade record can follow. -/
theorem lowConfidence_never_executes_witness :
    (executeTradeEarly (some "long") "SELL" "LOW" false none = .suppressReversal ∨
     executeTradeEarly (some "long") "SELL" "LOW" false none = .lowConfSkip) ∧
    reachesLock (executeTradeEarly (some "long") "SELL" "LOW" false none) = false ∧
    submitsOrder (executeTradeEarly (some "long") "SELL" "LOW" false none) = false :=
  lowConfidence_never_executes (some "long") "SELL" none (Or.inr rfl)

/-- The success criterion of `evaluate_signal_result`, stated explicitly. -/
theorem evaluateSignalResult_eq_true (sg : String) (pct : ℚ) :
    evaluateSignalResult sg pct = true ↔
      (pyUpper sg = "BUY" ∧ 0 ≤ pct) ∨ (pyUpper sg = "SELL" ∧ pct ≤ 0) ∨
      (pyUpper sg = "HOLD" ∧ |pct| ≤ HOLD_TOLERANCE) := by
  by_cases h1 : pyUpper sg = "BUY"
  · simp [evaluateSignalResult, h1]
  · by_cases h2 : pyUpper sg = "SELL"
    · simp [evaluateSignalResult, h1, h2]
    · by_cases h3 : pyUpper sg = "HOLD"
      · simp [evaluateSignalResult, h1, h2, h3]
      · simp [evaluateSignalResult, h1, h2, h3]

/-- A CLOSE-signal ledger record with an entry price and no validation yet. -/
def closeRecordPending : SignalRecord :=
  { timestamp := "2024-01-01 00:00:00"
    signal := "CLOSE"
    confidence := "HIGH"
    leverage := some 5
    entry_price := some 100
    validation_price := none
    validation_timestamp := none
    price_change_pct := none
    result := none
    reason := "close"
    stop_loss := none
    take_profit := none }

/-- C6 counterexample: the validation pass does not restrict itself to
BUY/SELL/HOLD records — a pending CLOSE record with a nonzero entry price is
scanned and assigned validation fields (its result is marked fail). -/
theorem validation_scans_close_counterexample :
    closeRecordPending.signal = "CLOSE" ∧
    closeRecordPending.validation_price = none ∧
    closeRecordPending.result = none ∧
    updateSignalValidation 100 "t1" [closeRecordPending] ≠ [closeRecordPending] ∧
    (updateSignalValidation 100 "t1" [closeRecordPending]).map
        (fun r => r.result) = [some "fail"] ∧
    (updateSignalValidation 100 "t1" [closeRecordPending]).map
        (fun r => r.validation_price) = [some 100] := by
  refine ⟨rfl, rfl, rfl, ?_, ?_, ?_⟩
  · intro h
    have := congrArg (fun l => l.map fun r : SignalRecord => r.validation_price) h
    simp [updateSignalValidation, updateRecord, truthyQ, closeRecordPending] at this
  · simp [updateSignalValidation, updateRecord, truthyQ, closeRecordPending,
      evaluateSignalResult, pyUpper]
  · simp [updateSignalValidation, updateRecord, truthyQ, closeRecordPending]

/-- C6 amended: the validation pass scans exactly the records whose
`validation_price` is unset and whose `entry_price` is set and nonzero,
regardless of signal type; for those it sets
`price_change_pct = (current - entry) / entry * 100` and marks success iff the
(uppercased) signal is BUY with a non-negative change, SELL with a non-positive
change, or HOLD within the 0.5 tolerance — every other signal is marked fail. -/
theorem validation_assignment_characterized (r : SignalRecord) (current : ℚ)
    (ts : String) (e : ℚ) (hv : r.validation_price = none)
    (he : r.entry_price = some e) (hne : e ≠ 0) :
    (updateRecord current ts r).validation_price = some current ∧
    (updateRecord current ts r).price_change_pct = some ((current - e) / e * 100) ∧
    ((updateRecord current ts r).result = some "success" ∨
      (updateRecord current ts r).result = some "fail") ∧
    ((updateRecord current ts r).result = some "success" ↔
      (pyUpper r.signal = "BUY" ∧ 0 ≤ (current - e) / e * 100) ∨
      (pyUpper r.signal = "SELL" ∧ (current - e) / e * 100 ≤ 0) ∨
      (pyUpper r.signal = "HOLD" ∧ |(current - e) / e * 100| ≤ HOLD_TOLERANCE)) ∧
    ∀ s : SignalRecord, s.validation_price ≠ none ∨ truthyQ s.entry_price = false →
      updateRecord current ts s = s := by
  have hcond : r.validation_price = none ∧ truthyQ r.entry_price := by
    refine ⟨hv, ?_⟩
    simp [truthyQ, he, hne]
  have hpct : (r.entry_price.getD 0) = e := by simp [he]
  constructor
  · simp [updateRecord, hcond, hpct, hne]
  constructor
  · simp [updateRecord, hcond, hpct, hne]
  have hkey : (updateRecord current ts r).result =
      some (if evaluateSignalResult r.signal ((current - e) / e * 100) then "success"
        else "fail") := by
    simp [updateRecord, hcond, hpct, hne]
  constructor
  · rw [hkey]
    cases hb : evaluateSignalResult r.signal ((current - e) / e * 100) <;> simp
  constructor
  · rw [hkey]
    cases hb : evaluateSignalResult r.signal ((current - e) / e * 100)
    · simp only [if_false, Bool.false_eq_true]
      constructor
      · intro h
        exact absurd h (by simp)
      · intro h
        exact absurd ((evaluateSignalResult_eq_true _ _).mpr h) (by simp [hb])
    · simp only [if_true]
      exact ⟨fun _ => (evaluateSignalResult_eq_true _ _).mp hb, fun _ => by simp⟩
  · intro s hs
    unfold updateRecord
    rw [if_neg]
    rintro ⟨h1, h2⟩
    rcases hs with hs | hs
    · exact hs h1
    · rw [hs] at h2
      exact Bool.false_ne_true h2

/-- C6 amended witness: a pending BUY record at entry 100 validated at price
105 gets change +5% and result success; an already-validated record is left
untouched. -/
theorem validation_assignment_characterized_witness :
    (updateRecord 105 "t1" { closeRecordPending with signal := "BUY" }).validation_price =
      some 105 ∧
    (updateRecord 105 "t1" { closeRecordPending with signal := "BUY" }).price_change_pct =
      some 5 ∧
    ((updateRecord 105 "t1" { closeRecordPending with signal := "BUY" }).result =
      some "success") := by
  have h := validation_assignment_characterized
    { closeRecordPending with signal := "BUY" } 105 "t1" 100 rfl rfl (by norm_num)
  have hpct : ((105 - 100) / 100 * 100 : ℚ) = 5 := by norm_num
  refine ⟨h.1, ?_, ?_⟩
  · rw [h.2.1, hpct]
  · exact h.2.2.2.1.mpr (Or.inl ⟨by decide, by rw [hpct]; norm_num⟩)

/-- One record is never re-assigned: once its validation price is set (or its
entry price is falsy) a later pass leaves it unchanged. -/
theorem updateRecord_idem (p1 p2 : ℚ) (t1 t2 : String) (r : SignalRecord) :
    updateRecord p2 t2 (updateRecord p1 t1 r) = updateRecord p1 t1 r := by
  by_cases h : r.validation_price = none ∧ truthyQ r.entry_price
  · unfold updateRecord
    rw [if_pos h, if_neg]
    rintro ⟨h1, -⟩
    simp at h1
  · unfold updateRecord
    rw [if_neg h, if_neg h]

/-- C7: the validation pass is idempotent — a second pass with any later price
and timestamp leaves every already-processed record unchanged. -/
theorem updateSignalValidation_idempotent (p1 p2 : ℚ) (t1 t2 : String)
    (history : List SignalRecord) :
    updateSignalValidation p2 t2 (updateSignalValidation p1 t1 history) =
      updateSignalValidation p1 t1 history := by
  unfold updateSignalValidation
  rw [List.map_map]
  exact List.map_congr_left fun r _ => updateRecord_idem p1 p2 t1 t2 r

/-- C8: every accuracy window summarizes at most its window size of evaluated
records, its records are drawn from the evaluated set, and every window and
breakdown reports an undefined ratio exactly when its evaluated subset is
empty. -/
theorem accuracyMetrics_bounds (history : List SignalRecord) :
    (computeAccuracyMetrics history).win10.total ≤ 10 ∧
    (computeAccuracyMetrics history).win30.total ≤ 30 ∧
    (computeAccuracyMetrics history).win50.total ≤ 50 ∧
    (computeAccuracyMetrics history).win10.total ≤ (history.filter isEvaluated).length ∧
    ((computeAccuracyMetrics history).win10.rate = none ↔
      (computeAccuracyMetrics history).win10.total = 0) ∧
    ((computeAccuracyMetrics history).win30.rate = none ↔
      (computeAccuracyMetrics history).win30.total = 0) ∧
    ((computeAccuracyMetrics history).win50.rate = none ↔
      (computeAccuracyMetrics history).win50.total = 0) ∧
    (∀ label : String, ((computeAccuracyMetrics history).bySignal label).rate = none ↔
      ((computeAccuracyMetrics history).bySignal label).total = 0) ∧
    (∀ label : String, ((computeAccuracyMetrics history).byConfidence label).rate = none ↔
      ((computeAccuracyMetrics history).byConfidence label).total = 0) ∧
    ((computeAccuracyMetrics history).byLeverageLow.rate = none ↔
      (computeAccuracyMetrics history).byLeverageLow.total = 0) ∧
    ((computeAccuracyMetrics history).byLeverageMid.rate = none ↔
      (computeAccuracyMetrics history).byLeverageMid.total = 0) ∧
    ((computeAccuracyMetrics history).byLeverageHigh.rate = none ↔
      (computeAccuracyMetrics history).byLeverageHigh.total = 0) := by
  have hsum : ∀ l : List SignalRecord, (summarize l).rate = none ↔ (summarize l).total = 0 := by
    intro l
    unfold summarize
    by_cases h : l.length = 0 <;> simp [h]
  have hlast : ∀ (n : ℕ) (l : List SignalRecord), (lastN n l).length ≤ n := by
    intro n l
    unfold lastN
    rw [List.length_drop]
    omega
  have hlast2 : ∀ (n : ℕ) (l : List SignalRecord), (lastN n l).length ≤ l.length := by
    intro n l
    unfold lastN
    rw [List.length_drop]
    omega
  refine ⟨hlast 10 _, hlast 30 _, hlast 50 _, hlast2 10 _, hsum _, hsum _, hsum _,
    fun _ => hsum _, fun _ => hsum _, hsum _, hsum _, hsum _⟩

/-- A minimal pending HOLD record used for ledger-shape witnesses. -/
def plainRecord : SignalRecord :=
  { timestamp := ""
    signal := "HOLD"
    confidence := "MEDIUM"
    leverage := none
    entry_price := none
    validation_price := none
    validation_timestamp := none
    price_change_pct := none
    result := none
    reason := ""
    stop_loss := none
    take_profit := none }

/-- C9 counterexample: the CLOSE execution path appends directly to the ledger
without the 200-record bound, so a full ledger grows to 201 records. -/
theorem closePath_unbounded_counterexample :
    (List.replicate 200 plainRecord).length = 200 ∧
    (closePathAppend (List.replicate 200 plainRecord) plainRecord).length = 201 := by
  constructor
  · rw [List.length_replicate]
  · unfold closePathAppend
    rw [List.length_append, List.length_replicate]
    rfl

/-- C9 amended: appends that go through `append_signal_record` keep the ledger
at no more than 200 records, evicting the oldest record when full, while the
CLOSE execution path appends without any bound. -/
theorem appendSignalRecord_bound (history : List SignalRecord) (r : SignalRecord)
    (h : history.length ≤ 200) :
    (appendSignalRecord history r).length ≤ 200 ∧
    (history.length = 200 → appendSignalRecord history r = history.tail ++ [r]) ∧
    (history.length < 200 → appendSignalRecord history r = history ++ [r]) ∧
    (closePathAppend history r).length = history.length + 1 := by
  refine ⟨?_, ?_, ?_, by simp [closePathAppend]⟩
  · simp only [appendSignalRecord]
    split
    · next hlen =>
      rw [List.length_drop]
      simp only [List.length_append, List.length_cons, List.length_nil] at hlen ⊢
      omega
    · next hlen =>
      simp only [List.length_append, List.length_cons, List.length_nil] at hlen ⊢
      omega
  · intro h200
    simp only [appendSignalRecord]
    rw [if_pos (by simp [h200]), List.drop_append_of_le_length (by omega), List.drop_one]
  · intro hlt
    simp only [appendSignalRecord]
    rw [if_neg (by simp; omega)]

/-- C9 amended witness: appending to a full 200-record ledger through
`append_signal_record` keeps it at 200 and drops the oldest entry; the CLOSE
path grows it to 201. -/
theorem appendSignalRecord_bound_witness :
    (appendSignalRecord (List.replicate 200 plainRecord) plainRecord).length ≤ 200 ∧
    appendSignalRecord (List.replicate 200 plainRecord) plainRecord =
      (List.replicate 200 plainRecord).tail ++ [plainRecord] ∧
    (closePathAppend (List.replicate 200 plainRecord) plainRecord).length =
      (List.replicate 200 plainRecord).length + 1 := by
  have h := appendSignalRecord_bound (List.replicate 200 plainRecord) plainRecord
    (by rw [List.length_replicate])
  exact ⟨h.1, h.2.1 (by rw [List.length_replicate]), h.2.2.2⟩

end CryptoTrader
